import Mathlib

/-!
Verification of the exnest-ai-sdk client SDK (`src/exnestai/client.services.ts`,
`src/exnestai/wrapper.services.ts`, and the published build
`src/dist/client.services.js`) against its natural-language specification.

The TypeScript/JavaScript code is shallowly embedded:
* JavaScript values that flow through dynamically-typed positions (request
  bodies, response payloads, message fields) are modelled by the inductive
  `Json`; a missing object property is modelled by `Json.null` (both
  `undefined` and `null` are falsy and non-string, and no verified claim
  distinguishes them).
* JavaScript numbers are abstracted as integers (`Int`) or counts (`Nat`);
  no verified claim depends on non-integral arithmetic.
* A thrown exception is modelled by `Except.error` (for the synchronous
  validation path) or by an explicit outcome constructor; `async` control
  flow is sequentialised.
* The network is an environment `env : Nat → FetchOutcome` giving, for each
  attempt index, either a completed HTTP exchange with a parsed JSON body
  (`FetchOutcome.ok status body`, covering `fetch` + `response.json()`), or a
  transport failure (`FetchOutcome.fail e`: fetch rejection, abort, or body
  parse failure) carrying the thrown JS error object.
* `JSON.parse` applied to streamed event payloads is an oracle parameter
  `parse : List Char → Option Json` (`none` models a parse exception);
  event-stream text is modelled as `List Char`, and the JS string builtins
  `split("\n")`, `startsWith`, `slice` are modelled by the structural
  functions below.
* Wall-clock artifacts (the `requestId: req_${Date.now()}` tag, `Date`
  timestamps) and debug console logging are not modelled; no claim refers to
  them and they do not affect control flow.
-/

/-- Model of a JavaScript/JSON value as it flows through the SDK's
dynamically-typed positions. -/
inductive Json where
  | null
  | bool (b : Bool)
  | num (n : Int)
  | str (s : String)
  | arr (elems : List Json)
  | obj (fields : List (String × Json))

/-- Model of a thrown JS error object as far as `createErrorResponse`
inspects it: its `name` and its (possibly undefined or empty) `message`. -/
structure JsError where
  name : String
  message : Option String

/-- JS truthiness of an error's `message` property (`error.message` is truthy
iff it is defined and a non-empty string). -/
def JsError.messageTruthy (e : JsError) : Bool :=
  match e.message with
  | some m => m ≠ ""
  | none => false

/-- The `error` object inside the TS source's `ExnestErrorResponse`
(`client.services.ts` lines 75-79). -/
structure ErrorDetails where
  details : String
  code : String
  type : String

/-- The TS source's `ExnestErrorResponse` shape (`client.services.ts` lines
71-81) as far as `createErrorResponse` populates it. The `requestId` field,
a wall-clock tag `req_${Date.now()}`, is not modelled; no claim refers to
it. -/
structure ExnestErrorResponse where
  success : Bool
  status_code : Nat
  message : String
  error : ErrorDetails

/-- Embedding of `createErrorResponse` from the TypeScript source
`src/exnestai/client.services.ts` lines 460-482:
defaults `message = "Network error occurred"`, `code = "NETWORK_ERROR"`;
an `AbortError` switches to `"Request timeout"` / `"TIMEOUT"`; otherwise a
truthy `error.message` replaces the message; `type` is always
`"CLIENT_ERROR"` and `status_code` 500. -/
def createErrorResponse (error : JsError) : ExnestErrorResponse :=
  let message :=
    if error.name = "AbortError" then "Request timeout"
    else if error.messageTruthy then (error.message.getD "")
    else "Network error occurred"
  let code := if error.name = "AbortError" then "TIMEOUT" else "NETWORK_ERROR"
  { success := false
    status_code := 500
    message := message
    error := { details := message, code := code, type := "CLIENT_ERROR" } }

/-- The nested `exnest` diagnostic block of the published build's error
shape (`src/dist/client.services.js`, `createErrorResponse`). -/
structure DistErrorExnest where
  details : String
  processing_time_ms : Nat

/-- The `error` object produced by the published build's normalizer
(`src/dist/client.services.js`). -/
structure DistErrorBody where
  message : String
  code : String
  type : String
  exnest : DistErrorExnest

/-- The whole value returned by the published build's normalizer: an object
with a single `error` field. -/
structure DistErrorResponse where
  error : DistErrorBody

/-- Embedding of `createErrorResponse` from the published build
`src/dist/client.services.js`: defaults `message = "Network error occurred"`,
`code = "network_error"`, `type = "client_error"`; an `AbortError` switches
to `"Request timeout"` / `"timeout"` / `"timeout_error"`; otherwise a truthy
`error.message` replaces the message. -/
def createErrorResponseDist (error : JsError) : DistErrorResponse :=
  let message :=
    if error.name = "AbortError" then "Request timeout"
    else if error.messageTruthy then (error.message.getD "")
    else "Network error occurred"
  let code := if error.name = "AbortError" then "timeout" else "network_error"
  let type := if error.name = "AbortError" then "timeout_error" else "client_error"
  { error := { message := message, code := code, type := type
               exnest := { details := message, processing_time_ms := 0 } } }

/-- Outcome of one HTTP attempt inside `executeRequest`'s `try` block:
either the exchange completed and `response.json()` parsed (the HTTP status
is carried but, as in the source, only read for debug logging), or some step
threw (fetch rejection, abort, body parse failure). -/
inductive FetchOutcome where
  | ok (status : Nat) (body : Json)
  | fail (e : JsError)

/-- Whether an attempt outcome is a transport failure. -/
def FetchOutcome.isFail : FetchOutcome → Bool
  | .ok _ _ => false
  | .fail _ => true

/-- What `executeRequest` hands back to its caller: either a parsed server
body returned verbatim, or the synthesized error response after all retries
were exhausted. The TS function always returns a value on this path — the
`catch` swallows every attempt's exception — so there is no thrown case. -/
inductive ExecReturn where
  | body (j : Json)
  | errorResponse (r : ExnestErrorResponse)

/-- Observable record of one `executeRequest` call: its returned value, the
0-indexed attempt numbers issued in order, and the backoff waits (ms)
awaited between attempts, in order. -/
structure ExecTrace where
  result : ExecReturn
  attempts : List Nat
  waits : List Nat

/-- One unrolling of the `for (let attempt = 0; attempt <= this.retries; ...)`
loop of `executeRequest` (`src/exnestai/client.services.ts` lines 301-360),
starting at attempt index `attempt` with `remaining` further attempts
allowed after the current one. On success the parsed body is returned
immediately; on failure, if attempts remain the loop waits
`retryDelay * (attempt + 1)` ms and continues, otherwise the loop exits and
the last error is normalized by `createErrorResponse`. -/
def execGo (retryDelay : Nat) (env : Nat → FetchOutcome) :
    Nat → Nat → ExecTrace
  | attempt, 0 =>
    -- `attempt == this.retries` in the source: a failure here falls out of
    -- the loop (no wait) into `createErrorResponse(lastError)`, and
    -- `lastError` is this attempt's error.
    (match env attempt with
     | .ok _ body => { result := .body body, attempts := [attempt], waits := [] }
     | .fail e =>
       { result := .errorResponse (createErrorResponse e)
         attempts := [attempt], waits := [] })
  | attempt, r + 1 =>
    -- `attempt < this.retries`: the success branch is identical, and a
    -- failure waits `retryDelay * (attempt + 1)` and continues the loop.
    match env attempt with
    | .ok _ body => { result := .body body, attempts := [attempt], waits := [] }
    | .fail _ =>
      let rest := execGo retryDelay env (attempt + 1) r
      { result := rest.result
        attempts := attempt :: rest.attempts
        waits := retryDelay * (attempt + 1) :: rest.waits }

/-- Embedding of `executeRequest` (`src/exnestai/client.services.ts` lines
293-360): run the attempt loop from attempt 0 with `retries` further
attempts allowed. -/
def executeRequest (retries retryDelay : Nat) (env : Nat → FetchOutcome) :
    ExecTrace :=
  execGo retryDelay env 0 retries

/-- JS truthiness of a modelled JS value (`!x` in the source): `null`
(also standing for `undefined`), `false`, `0` and `""` are falsy; every
array and object is truthy. -/
def jsTruthy : Json → Bool
  | .null => false
  | .bool b => b
  | .num n => n ≠ 0
  | .str s => s ≠ ""
  | .arr _ => true
  | .obj _ => true

/-- Model of `typeof x === "string"`. -/
def isJsString : Json → Bool
  | .str _ => true
  | _ => false

/-- Model of JS property access `m[k]` used by the validator: the value of
the first binding of `k` when `m` is an object, and `Json.null` (standing
for `undefined`) otherwise. -/
def getProp (m : Json) (k : String) : Json :=
  match m with
  | .obj fields => go fields
  | _ => .null
where
  go : List (String × Json) → Json
    | [] => .null
    | (k', v) :: rest => if k' = k then v else go rest

/-- Model of `["system", "user", "assistant"].includes(role)`: `includes`
compares with strict equality, so only those three string values pass. -/
def isValidRole : Json → Bool
  | .str s => s = "system" || s = "user" || s = "assistant"
  | _ => false

/-- The `for (const message of messages)` body of `validateInputs`
(`src/exnestai/client.services.ts` lines 497-504), returning the message of
the first `throw` or `none`. -/
def validateMessages : List Json → Option String
  | [] => none
  | m :: rest =>
    if !(jsTruthy (getProp m "role")) || !(isValidRole (getProp m "role")) then
      some "Each message must have a valid role (system, user, or assistant)"
    else if !(jsTruthy (getProp m "content")) || !(isJsString (getProp m "content")) then
      some "Each message must have non-empty content"
    else validateMessages rest

/-- Embedding of `validateInputs` (`src/exnestai/client.services.ts` lines
488-505). A `some msg` result models `throw new Error(msg)`; `none` models
normal return. The `!Array.isArray(messages) || messages.length === 0`
check is the match on `Json.arr`. -/
def validateInputs (model : Json) (messages : Json) : Option String :=
  if !(jsTruthy model) || !(isJsString model) then
    some "Model must be a non-empty string"
  else
    match messages with
    | .arr ms =>
      if ms.length = 0 then some "Messages must be a non-empty array"
      else validateMessages ms
    | _ => some "Messages must be a non-empty array"

/-- The claim/spec-side validity predicate, written from the spec's words
(spec section 4.1): the model is a non-empty string, the message list is a
non-empty array, every message's role is one of `system`/`user`/`assistant`
and every message's content is a non-empty string. Compared against the
source-side `validateInputs` in the C5 theorem. -/
def SpecValidInputs (model : Json) (messages : Json) : Prop :=
  (∃ s, model = Json.str s ∧ s ≠ "") ∧
  (∃ ms, messages = Json.arr ms ∧ ms ≠ [] ∧
    ∀ m ∈ ms,
      (getProp m "role" = Json.str "system" ∨
       getProp m "role" = Json.str "user" ∨
       getProp m "role" = Json.str "assistant") ∧
      (∃ t, getProp m "content" = Json.str t ∧ t ≠ ""))

/-- The options bag of the advanced client's `chat`/`stream`
(`ExnestChatOptions`, `src/exnestai/client.services.ts` lines 20-26).
`none` models an absent (`undefined`) field. -/
structure ChatOptions where
  temperature : Option Int := none
  maxTokens : Option Int := none
  timeout : Option Nat := none
  openaiCompatible : Option Bool := none
  stream : Option Bool := none

/-- Association lookup in a modelled JS object literal (first binding
wins), `none` standing for `undefined`. -/
def lookupPairs : List (String × Json) → String → Option Json
  | [], _ => none
  | (k', v) :: rest, k => if k' = k then some v else lookupPairs rest k

/-- Whether key `k` is present in a modelled JS object, and with which
value. -/
def jsonLookup (j : Json) (k : String) : Option Json :=
  match j with
  | .obj fields => lookupPairs fields k
  | _ => none

/-- Embedding of the request-body construction in the advanced client's
`chat` (`src/exnestai/client.services.ts` lines 149-167): the object starts
with `model`, `messages`, `api_key`, then each optional key is added iff
the corresponding option is not `undefined` (`!== undefined` checks). -/
def chatRequestBody (apiKey : String) (model messages : Json)
    (o : ChatOptions) : Json :=
  .obj ([("model", model), ("messages", messages), ("api_key", .str apiKey)]
    ++ (match o.temperature with
        | some t => [("temperature", Json.num t)]
        | none => [])
    ++ (match o.maxTokens with
        | some t => [("max_tokens", Json.num t)]
        | none => [])
    ++ (match o.openaiCompatible with
        | some b => [("openai_compatible", Json.bool b)]
        | none => [])
    ++ (match o.stream with
        | some b => [("stream", Json.bool b)]
        | none => []))

/-- Embedding of the request-body construction in the advanced client's
`stream` (`src/exnestai/client.services.ts` lines 188-204): like `chat` but
`stream: true` is always present and there is no `options.stream` key. -/
def streamRequestBody (apiKey : String) (model messages : Json)
    (o : ChatOptions) : Json :=
  .obj ([("model", model), ("messages", messages), ("api_key", .str apiKey),
         ("stream", .bool true)]
    ++ (match o.temperature with
        | some t => [("temperature", Json.num t)]
        | none => [])
    ++ (match o.maxTokens with
        | some t => [("max_tokens", Json.num t)]
        | none => [])
    ++ (match o.openaiCompatible with
        | some b => [("openai_compatible", Json.bool b)]
        | none => []))

/-- Embedding of the request-body construction in the simple wrapper's
`chat` (`src/exnestai/wrapper.services.ts` lines 150-159): `max_tokens` is
added under `if (maxTokens)` — a TRUTHINESS check, so an explicitly
supplied `0` is dropped. -/
def wrapperChatRequestBody (apiKey : String) (model messages : Json)
    (maxTokens : Option Int) : Json :=
  .obj ([("model", model), ("messages", messages), ("api_key", .str apiKey)]
    ++ (match maxTokens with
        | some t => if t ≠ 0 then [("max_tokens", Json.num t)] else []
        | none => []))

/-- Model of `a || b` on the per-call timeout (`options.timeout ||
this.timeout`, `src/exnestai/client.services.ts` lines 169 and 206): the
override wins iff it is defined and non-zero (JS truthiness of a number). -/
def jsOrNat (opt : Option Nat) (d : Nat) : Nat :=
  match opt with
  | some t => if t ≠ 0 then t else d
  | none => d

/-- The advanced client's mutable configuration (`ExnestAI` private fields,
`src/exnestai/client.services.ts` lines 107-113). -/
structure ClientConfig where
  apiKey : String
  baseUrl : String
  timeout : Nat
  retries : Nat
  retryDelay : Nat
  debug : Bool

/-- A `Partial<ExnestClientOptions>` argument to `updateConfig`: each field
is either absent (`none`, modelling `undefined`) or present with a value. -/
structure ConfigUpdate where
  apiKey : Option String := none
  baseUrl : Option String := none
  timeout : Option Nat := none
  retries : Option Nat := none
  retryDelay : Option Nat := none
  debug : Option Bool := none

/-- Embedding of `updateConfig` (`src/exnestai/client.services.ts` lines
548-555), guard for guard: `apiKey` and `baseUrl` are applied under a
truthiness check (`if (config.apiKey)`), so a present empty string is
skipped; `timeout`, `retries`, `retryDelay`, `debug` are applied under a
presence check (`!== undefined`), so falsy-but-present values apply. -/
def updateConfig (c : ClientConfig) (p : ConfigUpdate) : ClientConfig :=
  let c := match p.apiKey with
           | some k => if k ≠ "" then { c with apiKey := k } else c
           | none => c
  let c := match p.baseUrl with
           | some u => if u ≠ "" then { c with baseUrl := u } else c
           | none => c
  let c := match p.timeout with
           | some t => { c with timeout := t }
           | none => c
  let c := match p.retries with
           | some r => { c with retries := r }
           | none => c
  let c := match p.retryDelay with
           | some d => { c with retryDelay := d }
           | none => c
  match p.debug with
  | some b => { c with debug := b }
  | none => c

/-- Model of JS `s.slice(-4)`: the last four characters (the whole string
when it is shorter). -/
def sliceLastFour (s : String) : String :=
  String.mk (s.toList.drop (s.toList.length - 4))

/-- Embedding of `getApiKeyInfo` (`src/exnestai/client.services.ts` lines
539-543): `"No API key set"` for an unset (empty) key, otherwise a fixed
mask followed by the last four characters. -/
def getApiKeyInfo (c : ClientConfig) : String :=
  if c.apiKey = "" then "No API key set"
  else "****" ++ sliceLastFour c.apiKey

/-- The snapshot returned by `getConfig` (`src/exnestai/client.services.ts`
lines 518-534). -/
structure ConfigSnapshot where
  baseUrl : String
  timeout : Nat
  retries : Nat
  retryDelay : Nat
  debug : Bool
  apiKey : String

/-- Embedding of `getConfig`: a snapshot of the live fields with the
credential masked via `getApiKeyInfo`. -/
def getConfig (c : ClientConfig) : ConfigSnapshot :=
  { baseUrl := c.baseUrl
    timeout := c.timeout
    retries := c.retries
    retryDelay := c.retryDelay
    debug := c.debug
    apiKey := getApiKeyInfo c }

/-- Everything observable about one non-streaming `chat` call that got past
validation: the wire body it built, the per-attempt timeout it handed to
`executeRequest`, and the executor's trace. -/
structure ChatOutcome where
  requestBody : Json
  timeout : Nat
  trace : ExecTrace

/-- Embedding of the advanced client's `chat`
(`src/exnestai/client.services.ts` lines 142-172): validate (a `some`
result of `validateInputs` is a synchronous throw, before any network
activity — modelled by `Except.error`, with the environment untouched),
then build the body, compute `options.timeout || this.timeout`, and run
`executeRequest`. -/
def chat (cfg : ClientConfig) (model messages : Json) (o : ChatOptions)
    (env : Nat → FetchOutcome) : Except String ChatOutcome :=
  match validateInputs model messages with
  | some e => .error e
  | none =>
    .ok { requestBody := chatRequestBody cfg.apiKey model messages o
          timeout := jsOrNat o.timeout cfg.timeout
          trace := executeRequest cfg.retries cfg.retryDelay env }

/-- Whether a call handed a value back to its caller (`Except.ok`) rather
than throwing (`Except.error`). -/
def returnedValue (x : Except String ChatOutcome) : Bool :=
  match x with
  | .ok _ => true
  | .error _ => false

/-- The per-attempt timeout of a `chat` call, `none` when the call threw in
validation. -/
def chatTimeoutOf : Except String ChatOutcome → Option Nat
  | .ok o => some o.timeout
  | .error _ => none

/-- The value a `chat` call returned, `none` when the call threw in
validation. -/
def chatResultOf : Except String ChatOutcome → Option ExecReturn
  | .ok o => some o.trace.result
  | .error _ => none

/-- The pre-exchange plan of the advanced client's `stream`
(`src/exnestai/client.services.ts` lines 181-209): the wire body and the
single timeout covering the stream. -/
structure StreamPlan where
  requestBody : Json
  timeout : Nat

/-- Embedding of the validation/build/timeout prefix of `stream` (the
exchange itself is the streaming executor, modelled separately). -/
def streamPlanOf (cfg : ClientConfig) (model messages : Json)
    (o : ChatOptions) : Except String StreamPlan :=
  match validateInputs model messages with
  | some e => .error e
  | none =>
    .ok { requestBody := streamRequestBody cfg.apiKey model messages o
          timeout := jsOrNat o.timeout cfg.timeout }

/-- The timeout of a planned `stream` call, `none` when validation threw. -/
def streamTimeoutOf : Except String StreamPlan → Option Nat
  | .ok p => some p.timeout
  | .error _ => none

/-- The event marker `"data: "` as characters (JS `line.startsWith("data: ")`
/ `line.slice(6)` operate on this 6-character prefix). -/
def dataMarker : List Char := "data: ".toList

/-- The termination sentinel payload `"[DONE]"` as characters. -/
def doneChars : List Char := "[DONE]".toList

/-- Model of `line.startsWith("data: ")`. -/
def isDataLine (l : List Char) : Bool :=
  dataMarker.isPrefixOf l

/-- Model of `line.slice(6)`. -/
def payloadOf (l : List Char) : List Char :=
  l.drop 6

/-- Whether a line is the sentinel event `data: [DONE]`. -/
def isDoneLine (l : List Char) : Bool :=
  isDataLine l && decide (payloadOf l = doneChars)

/-- Model of the JS idiom `lines = buffer.split("\n"); buffer = lines.pop()`
used by `executeStreamRequest` (`src/exnestai/client.services.ts` lines
413-414): the complete (newline-terminated) lines of the text, paired with
the trailing partial line kept as the new buffer. -/
def splitLines : List Char → List (List Char) × List Char
  | [] => ([], [])
  | c :: cs =>
    let r := splitLines cs
    if c = '\n' then ([] :: r.1, r.2)
    else
      match r with
      | ([], buf) => ([], c :: buf)
      | (l :: ls, buf) => ((c :: l) :: ls, buf)

/-- The `for (const line of lines)` body of `executeStreamRequest`
(`src/exnestai/client.services.ts` lines 416-431): non-`data: ` lines are
skipped; the sentinel stops the generator (second component `true`); a
payload that parses yields a chunk; a payload that fails to parse is
logged and skipped. -/
def processLines (parse : List Char → Option Json) :
    List (List Char) → List Json × Bool
  | [] => ([], false)
  | l :: ls =>
    if isDataLine l then
      let d := payloadOf l
      if d = doneChars then ([], true)
      else
        match parse d with
        | some c =>
          let r := processLines parse ls
          (c :: r.1, r.2)
        | none => processLines parse ls
    else processLines parse ls

/-- The post-loop flush of `executeStreamRequest`
(`src/exnestai/client.services.ts` lines 434-447): at end of stream the
remaining buffer, when it is a `data: ` line whose payload is not the
sentinel, goes through the same parse-or-skip logic. -/
def flushRemaining (parse : List Char → Option Json) (buf : List Char) :
    List Json :=
  if isDataLine buf then
    let d := payloadOf buf
    if d ≠ doneChars then
      match parse d with
      | some c => [c]
      | none => []
    else []
  else []

/-- The `while (true)` read loop of `executeStreamRequest`
(`src/exnestai/client.services.ts` lines 406-447) over the successfully
read text chunks: append the chunk to the buffer, split off the complete
lines, process them (stopping for good at a sentinel), and keep the
trailing partial line; at end of stream, flush the buffer. Returns the
yielded chunks in order and whether the sentinel ended the stream. -/
def sseRun (parse : List Char → Option Json) (buf : List Char) :
    List (List Char) → List Json × Bool
  | [] => (flushRemaining parse buf, false)
  | chunk :: rest =>
    let s := splitLines (buf ++ chunk)
    let r := processLines parse s.1
    if r.2 then (r.1, true)
    else
      let r2 := sseRun parse s.2 rest
      (r.1 ++ r2.1, r2.2)

/-- A whole streaming exchange over a list of arriving text chunks,
starting with an empty buffer. -/
def sseStream (parse : List Char → Option Json)
    (chunks : List (List Char)) : List Json × Bool :=
  sseRun parse [] chunks

/-- The same computation on the fully concatenated stream text: process
the complete lines, and unless the sentinel stopped the stream, flush the
trailing partial line. Used to state chunking-invariance. -/
def sseText (parse : List Char → Option Json) (text : List Char) :
    List Json × Bool :=
  let s := splitLines text
  let r := processLines parse s.1
  if r.2 then (r.1, true)
  else (r.1 ++ flushRemaining parse s.2, false)

/-- The claim/spec-side description of the yielded chunks, written from the
spec's words (spec section 4.5 steps 3-4): over all newline-separated
segments of the stream text (the trailing partial segment included, since
step 4 flushes it through the same logic), take the segments before the
first `data: [DONE]` and parse the payload of each `data: ` segment,
skipping parse failures. Compared against `sseStream` in the C7 theorem. -/
def sseClaimedYields (parse : List Char → Option Json) (text : List Char) :
    List Json :=
  let segs := (splitLines text).1 ++ [(splitLines text).2]
  (segs.takeWhile fun l => !(isDoneLine l)).filterMap fun l =>
    if isDataLine l then parse (payloadOf l) else none

/-- The JSON payload of the spec's mock streaming event
`data: {"id":"1","choices":[{"delta":{"content":"Hi"}}]}`. -/
def mockPayload : String :=
  "\x7b\"id\":\"1\",\"choices\":[\x7b\"delta\":\x7b\"content\":\"Hi\"\x7d\x7d]\x7d"

/-- The parsed chunk value for `mockPayload`. -/
def mockChunk : Json :=
  .obj [("id", .str "1"),
        ("choices", .arr [.obj [("delta", .obj [("content", .str "Hi")])]])]

/-- A `JSON.parse` oracle for the mock scenarios: parses exactly the mock
payload (to `mockChunk`); anything else — in particular `not-json` — fails
to parse. -/
def mockParse (s : List Char) : Option Json :=
  if s = mockPayload.toList then some mockChunk else none

/-- The spec's mock event-stream body
`data: {...}\n\ndata: [DONE]\n\n` as one arriving chunk. -/
def mockBody : List Char :=
  ("data: " ++ mockPayload ++ "\n\ndata: [DONE]\n\n").toList

/-- A mock body with a malformed mid-stream event line before a valid one:
`data: not-json\n\ndata: {...}\n\ndata: [DONE]\n\n`. -/
def mockBodyMalformed : List Char :=
  ("data: not-json\n\ndata: " ++ mockPayload ++ "\n\ndata: [DONE]\n\n").toList

/-! ## Retry executor lemmas -/

/-- Pointwise-equal functions give equal maps (used to normalise the
attempt-index arithmetic below). -/
theorem list_map_funext {α β : Type} (l : List α) {f g : α → β}
    (h : ∀ x, f x = g x) : l.map f = l.map g := by
  rw [funext h]

/-- Peeling the first index off a mapped `List.range`. -/
theorem range_map_shift {β : Type} (f : Nat → β) (n : Nat) :
    (List.range (n + 1)).map f = f 0 :: (List.range n).map (fun i => f (i + 1)) := by
  rw [List.range_succ_eq_map, List.map_cons, List.map_map]
  exact congrArg _ (list_map_funext _ (fun i => by simp [Function.comp]))

/-- When attempts `a, a+1, …, a+r` all fail (the last with error `e`), the
loop suffix starting at attempt `a` with `r` retries left visits exactly
those attempts, waits `retryDelay * (index + 1)` after each non-final one,
and returns the normalized form of the last error. -/
theorem execGo_all_fail (retryDelay : Nat) (env : Nat → FetchOutcome)
    (e : JsError) :
    ∀ (r a : Nat), (∀ i, i ≤ r → (env (a + i)).isFail = true) →
      env (a + r) = .fail e →
      execGo retryDelay env a r =
        { result := .errorResponse (createErrorResponse e)
          attempts := (List.range (r + 1)).map (fun i => a + i)
          waits := (List.range r).map (fun i => retryDelay * (a + i + 1)) } := by
  intro r
  induction r with
  | zero =>
    intro a h he
    have ha : env a = .fail e := by simpa using he
    simp [execGo, ha, range_map_shift]
  | succ r ih =>
    intro a h he
    have h0 : (env a).isFail = true := by simpa using h 0 (Nat.zero_le _)
    obtain ⟨e1, he1⟩ : ∃ e1, env a = .fail e1 := by
      cases henv : env a with
      | ok s b => rw [henv] at h0; simp [FetchOutcome.isFail] at h0
      | fail e2 => exact ⟨e2, rfl⟩
    have hrec := ih (a + 1)
      (fun i hi => by
        have hh := h (i + 1) (Nat.succ_le_succ hi)
        rwa [show a + (i + 1) = a + 1 + i by omega] at hh)
      (by rwa [show a + (r + 1) = a + 1 + r by omega] at he)
    have hatt : (List.range (r + 1 + 1)).map (fun i => a + i) =
        a :: (List.range (r + 1)).map (fun i => a + 1 + i) := by
      rw [range_map_shift]
      exact congrArg₂ _ (by simp) (list_map_funext _ (fun i => by omega))
    have hwai : (List.range (r + 1)).map (fun i => retryDelay * (a + i + 1)) =
        retryDelay * (a + 1) :: (List.range r).map
          (fun i => retryDelay * (a + 1 + i + 1)) := by
      rw [range_map_shift]
      refine congrArg₂ _ (by simp) (list_map_funext _ (fun i => ?_))
      rw [show a + (i + 1) + 1 = a + 1 + i + 1 from by omega]
    simp only [execGo, he1, hrec, hatt, hwai]

/-- When attempts `a, …, a+k-1` fail and attempt `a+k` completes with a
parseable body (`k` within the retry budget `r`), the loop suffix returns
that body after exactly the attempts `a, …, a+k`. -/
theorem execGo_first_ok (retryDelay : Nat) (env : Nat → FetchOutcome)
    (status : Nat) (b : Json) :
    ∀ (k r a : Nat), k ≤ r → (∀ i, i < k → (env (a + i)).isFail = true) →
      env (a + k) = .ok status b →
      execGo retryDelay env a r =
        { result := .body b
          attempts := (List.range (k + 1)).map (fun i => a + i)
          waits := (List.range k).map (fun i => retryDelay * (a + i + 1)) } := by
  intro k
  induction k with
  | zero =>
    intro r a _ _ he
    have ha : env a = .ok status b := by simpa using he
    cases r with
    | zero => simp [execGo, ha, range_map_shift]
    | succ r => simp [execGo, ha, range_map_shift]
  | succ k ih =>
    intro r a hk h he
    obtain ⟨r1, rfl⟩ : ∃ r1, r = r1 + 1 := ⟨r - 1, by omega⟩
    have h0 : (env a).isFail = true := by simpa using h 0 (Nat.succ_pos _)
    obtain ⟨e1, he1⟩ : ∃ e1, env a = .fail e1 := by
      cases henv : env a with
      | ok s b1 => rw [henv] at h0; simp [FetchOutcome.isFail] at h0
      | fail e2 => exact ⟨e2, rfl⟩
    have hrec := ih r1 (a + 1) (by omega)
      (fun i hi => by
        have hh := h (i + 1) (by omega)
        rwa [show a + (i + 1) = a + 1 + i by omega] at hh)
      (by rwa [show a + (k + 1) = a + 1 + k by omega] at he)
    have hatt : (List.range (k + 1 + 1)).map (fun i => a + i) =
        a :: (List.range (k + 1)).map (fun i => a + 1 + i) := by
      rw [range_map_shift]
      exact congrArg₂ _ (by simp) (list_map_funext _ (fun i => by omega))
    have hwai : (List.range (k + 1)).map (fun i => retryDelay * (a + i + 1)) =
        retryDelay * (a + 1) :: (List.range k).map
          (fun i => retryDelay * (a + 1 + i + 1)) := by
      rw [range_map_shift]
      refine congrArg₂ _ (by simp) (list_map_funext _ (fun i => ?_))
      rw [show a + (i + 1) + 1 = a + 1 + i + 1 from by omega]
    simp only [execGo, he1, hrec, hatt, hwai]

/-! ## C1 - retry count and linear backoff on all-transport-failure calls -/

/-- Claim C1: for every non-streaming call in which every attempt ends in a
transport failure, `executeRequest` makes exactly `retries + 1` attempts
(indices `0, …, retries` in order), the wait inserted between attempt `i`
and attempt `i + 1` equals `retryDelay * (i + 1)` (linear in the attempt
index), and there is no wait after the final attempt (the wait list has
exactly `retries` entries, one per adjacent pair of attempts). -/
theorem executeRequest_all_fail_attempts_and_backoff
    (retries retryDelay : Nat) (env : Nat → FetchOutcome)
    (h : ∀ i, i ≤ retries → (env i).isFail = true) :
    (executeRequest retries retryDelay env).attempts = List.range (retries + 1) ∧
    (executeRequest retries retryDelay env).waits =
      (List.range retries).map (fun i => retryDelay * (i + 1)) := by
  obtain ⟨e, he⟩ : ∃ e, env retries = .fail e := by
    have h0 := h retries (Nat.le_refl _)
    cases henv : env retries with
    | ok s b => rw [henv] at h0; simp [FetchOutcome.isFail] at h0
    | fail e0 => exact ⟨e0, rfl⟩
  have hmain := execGo_all_fail retryDelay env e retries 0
    (fun i hi => by simpa using h i hi) (by simpa using he)
  rw [executeRequest, hmain]
  constructor <;> simp

/-- Witness for C1: with `retries = 2`, `retryDelay = 5` and every attempt
failing, the attempts are `[0, 1, 2]` and the waits are `[5, 10]`. -/
theorem executeRequest_all_fail_attempts_and_backoff_witness :
    (executeRequest 2 5 (fun _ => .fail ⟨"Error", some "boom"⟩)).attempts
        = [0, 1, 2] ∧
    (executeRequest 2 5 (fun _ => .fail ⟨"Error", some "boom"⟩)).waits
        = [5, 10] := by
  have h := executeRequest_all_fail_attempts_and_backoff 2 5
    (fun _ => .fail ⟨"Error", some "boom"⟩) (fun _ _ => rfl)
  exact ⟨h.1.trans (by rfl), h.2.trans (by rfl)⟩

/-! ## C2 - any parseable body is returned verbatim, regardless of status -/

/-- Claim C2: whenever the first `k` attempts fail and attempt `k` (within
the retry budget) completes its HTTP exchange with a body that parses as
JSON, `executeRequest` returns exactly that parsed body on attempt `k` and
performs no further attempts — for any HTTP `status` whatsoever, so an
error-shaped body with a non-2xx status is returned unchanged and never
retried. -/
theorem executeRequest_parseable_body_returned_verbatim
    (retries retryDelay k status : Nat) (body : Json)
    (env : Nat → FetchOutcome)
    (hk : k ≤ retries) (hfail : ∀ i, i < k → (env i).isFail = true)
    (hok : env k = .ok status body) :
    executeRequest retries retryDelay env =
      { result := .body body
        attempts := List.range (k + 1)
        waits := (List.range k).map (fun i => retryDelay * (i + 1)) } := by
  have hmain := execGo_first_ok retryDelay env status body k retries 0 hk
    (fun i hi => by simpa using hfail i hi) (by simpa using hok)
  rw [executeRequest, hmain]
  simp

/-- Witness for C2: with `retries = 3`, a first attempt answered with HTTP
status 400 and the error-shaped body `{"error": "bad request"}` is returned
verbatim after a single attempt, with no waits. -/
theorem executeRequest_parseable_body_returned_verbatim_witness :
    executeRequest 3 1000
      (fun _ => .ok 400 (Json.obj [("error", .str "bad request")])) =
      { result := .body (Json.obj [("error", .str "bad request")])
        attempts := [0], waits := [] } := by
  have h := executeRequest_parseable_body_returned_verbatim 3 1000 0 400
    (Json.obj [("error", .str "bad request")])
    (fun _ => .ok 400 (Json.obj [("error", .str "bad request")]))
    (Nat.zero_le _) (fun i hi => absurd hi (Nat.not_lt_zero i)) rfl
  exact h.trans (by rfl)

/-! ## C3 - validated non-streaming calls return values, never throw -/

/-- Claim C3: a non-streaming `chat` call whose inputs pass validation
always hands a value back to its caller (`Except.ok` — every transport
failure is swallowed by the attempt loop's `catch`), and when every attempt
fails it returns the error response synthesized by `createErrorResponse`
from the last transport exception. -/
theorem chat_absorbs_transport_failures
    (cfg : ClientConfig) (model messages : Json) (o : ChatOptions)
    (e : JsError) (env : Nat → FetchOutcome)
    (hvalid : validateInputs model messages = none)
    (hfail : ∀ i, i ≤ cfg.retries → (env i).isFail = true)
    (hlast : env cfg.retries = .fail e) :
    (∀ env' : Nat → FetchOutcome,
        returnedValue (chat cfg model messages o env') = true) ∧
    chatResultOf (chat cfg model messages o env) =
      some (.errorResponse (createErrorResponse e)) := by
  constructor
  · intro env'
    simp [chat, hvalid, returnedValue]
  · have hmain := execGo_all_fail cfg.retryDelay env e cfg.retries 0
      (fun i hi => by simpa using hfail i hi) (by simpa using hlast)
    simp [chat, hvalid, chatResultOf, executeRequest, hmain]

/-- Witness for C3: a concrete validated call whose two attempts both fail
with a fetch `TypeError` returns (rather than throws) the normalized error
value built from that last exception. -/
theorem chat_absorbs_transport_failures_witness :
    returnedValue (chat
      { apiKey := "sk-test", baseUrl := "https://api.exnest.app/v1",
        timeout := 30000, retries := 1, retryDelay := 1000, debug := false }
      (Json.str "openai:gpt-4")
      (Json.arr [Json.obj [("role", .str "user"), ("content", .str "hi")]])
      {} (fun _ => .fail ⟨"TypeError", some "fetch failed"⟩)) = true ∧
    chatResultOf (chat
      { apiKey := "sk-test", baseUrl := "https://api.exnest.app/v1",
        timeout := 30000, retries := 1, retryDelay := 1000, debug := false }
      (Json.str "openai:gpt-4")
      (Json.arr [Json.obj [("role", .str "user"), ("content", .str "hi")]])
      {} (fun _ => .fail ⟨"TypeError", some "fetch failed"⟩)) =
      some (.errorResponse (createErrorResponse ⟨"TypeError", some "fetch failed"⟩)) := by
  have h := chat_absorbs_transport_failures
    { apiKey := "sk-test", baseUrl := "https://api.exnest.app/v1",
      timeout := 30000, retries := 1, retryDelay := 1000, debug := false }
    (Json.str "openai:gpt-4")
    (Json.arr [Json.obj [("role", .str "user"), ("content", .str "hi")]])
    {} ⟨"TypeError", some "fetch failed"⟩
    (fun _ => .fail ⟨"TypeError", some "fetch failed"⟩)
    rfl (fun _ _ => rfl) rfl
  exact ⟨h.1 _, h.2⟩

/-! ## C4 - error normalizer mapping -/

/-- Counterexample for C4: the error normalizer at the claim's cited code
site (`createErrorResponse` in `src/exnestai/client.services.ts`) maps an
abort exception to code `"TIMEOUT"` with category `"CLIENT_ERROR"` — not to
code `"timeout"` with category `"timeout_error"` as the claim states (that
mapping is produced only by the published build's variant). -/
theorem createErrorResponse_abort_mapping_counterexample :
    (createErrorResponse ⟨"AbortError", none⟩).error.code = "TIMEOUT" ∧
    (createErrorResponse ⟨"AbortError", none⟩).error.type = "CLIENT_ERROR" ∧
    "TIMEOUT" ≠ "timeout" ∧ "CLIENT_ERROR" ≠ "timeout_error" :=
  ⟨rfl, rfl, by decide, by decide⟩

/-- Amended C4: the claimed mapping (abort → code `timeout`, category
`timeout_error`; otherwise code `network_error`, category `client_error`,
message from the exception's text or a generic fallback) holds for the
published build's normalizer `createErrorResponseDist`
(`src/dist/client.services.js`); the TypeScript source's
`createErrorResponse` instead emits uppercase `TIMEOUT`/`NETWORK_ERROR`
codes with category `CLIENT_ERROR` in both branches. -/
theorem createErrorResponseDist_mapping (e : JsError) :
    (e.name = "AbortError" →
      (createErrorResponseDist e).error.code = "timeout" ∧
      (createErrorResponseDist e).error.type = "timeout_error") ∧
    (e.name ≠ "AbortError" →
      (createErrorResponseDist e).error.code = "network_error" ∧
      (createErrorResponseDist e).error.type = "client_error" ∧
      (createErrorResponseDist e).error.message =
        (if e.messageTruthy = true then e.message.getD ""
         else "Network error occurred")) ∧
    ((createErrorResponse e).error.code =
        (if e.name = "AbortError" then "TIMEOUT" else "NETWORK_ERROR") ∧
      (createErrorResponse e).error.type = "CLIENT_ERROR") := by
  refine ⟨fun h => ?_, fun h => ?_, ?_, ?_⟩
  · constructor <;> simp [createErrorResponseDist, h]
  · refine ⟨?_, ?_, ?_⟩ <;> simp [createErrorResponseDist, h]
  · by_cases h : e.name = "AbortError" <;> simp [createErrorResponse, h]
  · by_cases h : e.name = "AbortError" <;> simp [createErrorResponse, h]

/-- Witness for C4 (amended): the dist normalizer maps an abort to
`timeout`/`timeout_error` and a fetch `TypeError` with message text to
`network_error`/`client_error` carrying that text. -/
theorem createErrorResponseDist_mapping_witness :
    (createErrorResponseDist ⟨"AbortError", none⟩).error.code = "timeout" ∧
    (createErrorResponseDist ⟨"AbortError", none⟩).error.type = "timeout_error" ∧
    (createErrorResponseDist ⟨"TypeError", some "fetch failed"⟩).error.code
        = "network_error" ∧
    (createErrorResponseDist ⟨"TypeError", some "fetch failed"⟩).error.type
        = "client_error" ∧
    (createErrorResponseDist ⟨"TypeError", some "fetch failed"⟩).error.message
        = "fetch failed" := by
  have h1 := (createErrorResponseDist_mapping ⟨"AbortError", none⟩).1 rfl
  have h2 := (createErrorResponseDist_mapping ⟨"TypeError", some "fetch failed"⟩).2.1
    (by decide)
  exact ⟨h1.1, h1.2, h2.1, h2.2.1, h2.2.2.trans (by decide)⟩

/-! ## C5 - input validation -/

/-- A JS value passes `!x || typeof x !== "string"`-style rejection iff it
is a non-empty string. -/
theorem nonEmptyString_iff (c : Json) :
    (jsTruthy c && isJsString c) = true ↔ (∃ t, c = Json.str t ∧ t ≠ "") := by
  cases c with
  | str s => simp [jsTruthy, isJsString]
  | null => simp [jsTruthy, isJsString]
  | bool b => simp [jsTruthy, isJsString]
  | num n => simp [jsTruthy, isJsString]
  | arr l => simp [jsTruthy, isJsString]
  | obj f => simp [jsTruthy, isJsString]

/-- A role value passes `!role || !includes(role)`-style rejection iff it is
one of the three role strings. -/
theorem roleOk_iff (r : Json) :
    (jsTruthy r && isValidRole r) = true ↔
      (r = Json.str "system" ∨ r = Json.str "user" ∨ r = Json.str "assistant") := by
  cases r with
  | str s =>
    simp only [jsTruthy, isValidRole, Bool.and_eq_true, decide_eq_true_eq,
      Bool.or_eq_true, Json.str.injEq, or_assoc]
    constructor
    · rintro ⟨_, h⟩; exact h
    · intro h
      refine ⟨?_, h⟩
      rcases h with rfl | rfl | rfl <;> simp
  | null => simp [jsTruthy, isValidRole]
  | bool b => simp [jsTruthy, isValidRole]
  | num n => simp [jsTruthy, isValidRole]
  | arr l => simp [jsTruthy, isValidRole]
  | obj f => simp [jsTruthy, isValidRole]

/-- The per-message loop of `validateInputs` succeeds iff every message has
a valid role and non-empty string content. -/
theorem validateMessages_none_iff (ms : List Json) :
    validateMessages ms = none ↔
      ∀ m ∈ ms,
        (getProp m "role" = Json.str "system" ∨
         getProp m "role" = Json.str "user" ∨
         getProp m "role" = Json.str "assistant") ∧
        (∃ t, getProp m "content" = Json.str t ∧ t ≠ "") := by
  induction ms with
  | nil => simp [validateMessages]
  | cons m rest ih =>
    rw [validateMessages]
    split_ifs with h1 h2
    · refine iff_of_false (by simp) ?_
      intro hall
      have hm := (roleOk_iff _).mpr (hall m (List.mem_cons_self m rest)).1
      simp only [Bool.or_eq_true, Bool.not_eq_true'] at h1
      simp only [Bool.and_eq_true] at hm
      rcases h1 with h1 | h1
      · rw [hm.1] at h1; cases h1
      · rw [hm.2] at h1; cases h1
    · refine iff_of_false (by simp) ?_
      intro hall
      have hm := (nonEmptyString_iff _).mpr (hall m (List.mem_cons_self m rest)).2
      simp only [Bool.or_eq_true, Bool.not_eq_true'] at h2
      simp only [Bool.and_eq_true] at hm
      rcases h2 with h2 | h2
      · rw [hm.1] at h2; cases h2
      · rw [hm.2] at h2; cases h2
    · rw [ih]
      simp only [Bool.or_eq_true, Bool.not_eq_true', not_or, Bool.not_eq_false] at h1 h2
      constructor
      · intro hrest x hx
        rcases List.mem_cons.mp hx with rfl | hx
        · exact ⟨(roleOk_iff _).mp (by simp [h1.1, h1.2]),
                 (nonEmptyString_iff _).mp (by simp [h2.1, h2.2])⟩
        · exact hrest x hx
      · intro hall x hx
        exact hall x (List.mem_cons_of_mem _ hx)

/-- Claim C5: `validateInputs` rejects (with a synchronous throw, modelled
by `some errorMessage`) exactly the inputs outside `SpecValidInputs` —
model empty or not a string, message list empty or not an array, a message
role outside `{system, user, assistant}`, or empty/non-string content — and
when it rejects, `chat` raises that error before touching the network: the
result is the same `Except.error` for every environment, so no attempt is
ever issued. -/
theorem validateInputs_spec (model messages : Json) :
    (validateInputs model messages = none ↔ SpecValidInputs model messages) ∧
    (∀ err, validateInputs model messages = some err →
      ∀ (cfg : ClientConfig) (o : ChatOptions) (env : Nat → FetchOutcome),
        chat cfg model messages o env = .error err) := by
  constructor
  · by_cases hm : (jsTruthy model && isJsString model) = true
    · have hmodel := (nonEmptyString_iff _).mp hm
      simp only [Bool.and_eq_true] at hm
      have hcond : (!jsTruthy model || !isJsString model) = false := by
        simp [hm.1, hm.2]
      cases messages with
      | arr ms =>
        cases ms with
        | nil =>
          simp [validateInputs, hcond, SpecValidInputs]
        | cons m rest =>
          simp only [validateInputs, hcond, Bool.false_eq_true, if_false,
            List.length_cons, Nat.succ_ne_zero, if_neg, SpecValidInputs,
            validateMessages_none_iff, Json.arr.injEq]
          constructor
          · intro h
            exact ⟨hmodel, m :: rest, rfl, List.cons_ne_nil m rest, h⟩
          · rintro ⟨-, ms', hms', -, hall⟩
            obtain rfl : ms' = m :: rest := hms'.symm
            exact hall
      | null => simp [validateInputs, hcond, SpecValidInputs]
      | bool b => simp [validateInputs, hcond, SpecValidInputs]
      | num n => simp [validateInputs, hcond, SpecValidInputs]
      | str s => simp [validateInputs, hcond, SpecValidInputs]
      | obj f => simp [validateInputs, hcond, SpecValidInputs]
    · have hcond : (!jsTruthy model || !isJsString model) = true := by
        cases hj : jsTruthy model <;> cases hs : isJsString model <;> simp_all
      refine iff_of_false ?_ ?_
      · simp [validateInputs, hcond]
      · rintro ⟨⟨s, rfl, hs⟩, -⟩
        exact hm (by simp [jsTruthy, isJsString, hs])
  · intro err herr cfg o env
    simp [chat, herr]

/-- Witness for C5: a well-formed call passes validation (and satisfies the
spec-side predicate via the theorem), while a call with an empty model name
is rejected with the model error for two different environments alike. -/
theorem validateInputs_spec_witness :
    validateInputs (Json.str "openai:gpt-4")
      (Json.arr [Json.obj [("role", .str "user"), ("content", .str "hi")]])
      = none ∧
    SpecValidInputs (Json.str "openai:gpt-4")
      (Json.arr [Json.obj [("role", .str "user"), ("content", .str "hi")]]) ∧
    chat
      { apiKey := "sk-test", baseUrl := "b", timeout := 30000, retries := 3,
        retryDelay := 1000, debug := false }
      (Json.str "") (Json.arr []) {}
      (fun _ => .fail ⟨"TypeError", some "fetch failed"⟩)
      = .error "Model must be a non-empty string" ∧
    chat
      { apiKey := "sk-test", baseUrl := "b", timeout := 30000, retries := 3,
        retryDelay := 1000, debug := false }
      (Json.str "") (Json.arr []) {}
      (fun _ => .ok 200 Json.null)
      = .error "Model must be a non-empty string" := by
  refine ⟨rfl, ?_, ?_, ?_⟩
  · exact (validateInputs_spec (Json.str "openai:gpt-4")
      (Json.arr [Json.obj [("role", .str "user"), ("content", .str "hi")]])).1.mp rfl
  · exact (validateInputs_spec (Json.str "") (Json.arr [])).2
      "Model must be a non-empty string" rfl _ {} _
  · exact (validateInputs_spec (Json.str "") (Json.arr [])).2
      "Model must be a non-empty string" rfl _ {} _

/-! ## C6 - per-call timeout override -/

/-- Counterexample for C6: with a client default timeout of 30000 ms and an
option override of 60000 ms, the timeout bounding each attempt is 60000 —
the override itself (`options.timeout || this.timeout`) — and not the
smaller of the two values (30000) as the claim states. -/
theorem chat_timeout_not_min_counterexample :
    chatTimeoutOf (chat
      { apiKey := "sk-test", baseUrl := "b", timeout := 30000, retries := 0,
        retryDelay := 1000, debug := false }
      (Json.str "m")
      (Json.arr [Json.obj [("role", .str "user"), ("content", .str "hi")]])
      { timeout := some 60000 }
      (fun _ => .ok 200 Json.null)) = some 60000 ∧
    Nat.min 60000 30000 = 30000 ∧ (60000 : Nat) ≠ 30000 :=
  ⟨rfl, by decide, by decide⟩

/-- Amended C6: for every chat or stream call with a per-call timeout
override set in the options, the timeout bounding each HTTP attempt equals
the override when the override is non-zero, and the client's default
timeout when the override is 0 (JS `options.timeout || this.timeout`) — it
is not clamped to the smaller of the two values. -/
theorem requestTimeout_override_semantics
    (cfg : ClientConfig) (model messages : Json) (o : ChatOptions)
    (env : Nat → FetchOutcome) (t : Nat)
    (hvalid : validateInputs model messages = none)
    (hset : o.timeout = some t) :
    chatTimeoutOf (chat cfg model messages o env) =
      some (if t ≠ 0 then t else cfg.timeout) ∧
    streamTimeoutOf (streamPlanOf cfg model messages o) =
      some (if t ≠ 0 then t else cfg.timeout) := by
  constructor <;>
    simp [chat, streamPlanOf, hvalid, chatTimeoutOf, streamTimeoutOf,
      jsOrNat, hset]

/-- Witness for C6 (amended): a validated call with override 60000 against
default 30000 runs with timeout 60000, for both chat and stream; an
override of 0 falls back to the default. -/
theorem requestTimeout_override_semantics_witness :
    chatTimeoutOf (chat
      { apiKey := "sk-test", baseUrl := "b", timeout := 30000, retries := 0,
        retryDelay := 1000, debug := false }
      (Json.str "m")
      (Json.arr [Json.obj [("role", .str "user"), ("content", .str "hi")]])
      { timeout := some 60000 }
      (fun _ => .ok 200 Json.null)) = some 60000 ∧
    streamTimeoutOf (streamPlanOf
      { apiKey := "sk-test", baseUrl := "b", timeout := 30000, retries := 0,
        retryDelay := 1000, debug := false }
      (Json.str "m")
      (Json.arr [Json.obj [("role", .str "user"), ("content", .str "hi")]])
      { timeout := some 0 }) = some 30000 := by
  have h1 := requestTimeout_override_semantics
    { apiKey := "sk-test", baseUrl := "b", timeout := 30000, retries := 0,
      retryDelay := 1000, debug := false }
    (Json.str "m")
    (Json.arr [Json.obj [("role", .str "user"), ("content", .str "hi")]])
    { timeout := some 60000 } (fun _ => .ok 200 Json.null) 60000 rfl rfl
  have h2 := requestTimeout_override_semantics
    { apiKey := "sk-test", baseUrl := "b", timeout := 30000, retries := 0,
      retryDelay := 1000, debug := false }
    (Json.str "m")
    (Json.arr [Json.obj [("role", .str "user"), ("content", .str "hi")]])
    { timeout := some 0 } (fun _ => .ok 200 Json.null) 0 rfl rfl
  exact ⟨h1.1.trans (by decide), h2.2.trans (by decide)⟩

/-- Field-wise characterization of `updateConfig`: the chain of guarded
assignments acts independently on each field. -/
theorem updateConfig_eq (c : ClientConfig) (p : ConfigUpdate) :
    updateConfig c p =
      { apiKey := match p.apiKey with
                  | some k => if k ≠ "" then k else c.apiKey
                  | none => c.apiKey
        baseUrl := match p.baseUrl with
                   | some u => if u ≠ "" then u else c.baseUrl
                   | none => c.baseUrl
        timeout := p.timeout.getD c.timeout
        retries := p.retries.getD c.retries
        retryDelay := p.retryDelay.getD c.retryDelay
        debug := p.debug.getD c.debug } := by
  rcases p with ⟨a, b, t, r, d, g⟩
  rcases c with ⟨ck, cb, ct, cr, cd, cg⟩
  cases a <;> cases b <;> cases t <;> cases r <;> cases d <;> cases g <;>
    first
      | rfl
      | (dsimp only [updateConfig, Option.getD]; split_ifs <;> rfl)

/-! ## C8 - updateConfig presence semantics -/

/-- Counterexample for C8: a partial update whose `apiKey` field is present
with the falsy empty string is NOT applied — `updateConfig` returns the
configuration unchanged although the field was present — so `updateConfig`
does not mutate exactly the fields present in the partial. -/
theorem updateConfig_present_field_not_applied_counterexample :
    updateConfig
      { apiKey := "sk-live-abcd1234", baseUrl := "https://api.exnest.app/v1",
        timeout := 30000, retries := 3, retryDelay := 1000, debug := false }
      { apiKey := some "" } =
      { apiKey := "sk-live-abcd1234", baseUrl := "https://api.exnest.app/v1",
        timeout := 30000, retries := 3, retryDelay := 1000, debug := false } ∧
    "sk-live-abcd1234" ≠ "" :=
  ⟨rfl, by decide⟩

/-- Amended C8: `updateConfig` leaves all absent fields unchanged, and for
the presence-checked fields (`timeout`, `retries`, `retryDelay`, `debug`) a
present field always applies, even with a falsy value — in particular
`debug: false` and `timeout: 0` apply and are observable via a subsequent
`getConfig()`; `apiKey` and `baseUrl`, however, apply only when present
with a non-empty string (a present empty string is skipped). -/
theorem updateConfig_field_semantics (c : ClientConfig) (p : ConfigUpdate) :
    (updateConfig c p).timeout = p.timeout.getD c.timeout ∧
    (updateConfig c p).retries = p.retries.getD c.retries ∧
    (updateConfig c p).retryDelay = p.retryDelay.getD c.retryDelay ∧
    (updateConfig c p).debug = p.debug.getD c.debug ∧
    (getConfig (updateConfig c p)).timeout = p.timeout.getD c.timeout ∧
    (getConfig (updateConfig c p)).debug = p.debug.getD c.debug ∧
    (updateConfig c p).apiKey =
      (match p.apiKey with
       | some k => if k ≠ "" then k else c.apiKey
       | none => c.apiKey) ∧
    (updateConfig c p).baseUrl =
      (match p.baseUrl with
       | some u => if u ≠ "" then u else c.baseUrl
       | none => c.baseUrl) := by
  simp [updateConfig_eq, getConfig]

/-! ## C9 - optional request-body fields -/

/-- Counterexample for C9: the simple wrapper's request builder drops an
explicitly supplied `maxTokens` of 0 (`if (maxTokens)` is a truthiness
check), so the built envelope has no `max_tokens` key at all — the claim's
"included rather than dropped" fails. -/
theorem wrapper_maxTokens_zero_dropped_counterexample :
    jsonLookup (wrapperChatRequestBody "sk-test" (Json.str "m")
      (Json.arr [Json.obj [("role", Json.str "user"), ("content", Json.str "hi")]])
      (some 0)) "max_tokens" = none ∧
    ¬ jsonLookup (wrapperChatRequestBody "sk-test" (Json.str "m")
      (Json.arr [Json.obj [("role", Json.str "user"), ("content", Json.str "hi")]])
      (some 0)) "max_tokens" = some (Json.num 0) :=
  ⟨rfl, fun h => Option.noConfusion h⟩

/-- Amended C9: the advanced client's builder includes each optional field
(`temperature`, `max_tokens`, `openai_compatible`, `stream`) iff the caller
explicitly set it, even to a falsy/zero value — in particular an unset
temperature never appears as 0 and an explicit `maxTokens: 0` is included —
whereas the simple wrapper's builder includes `max_tokens` iff the caller
set it to a non-zero value, dropping an explicit 0. -/
theorem requestBody_optional_field_presence (apiKey : String)
    (model messages : Json) (o : ChatOptions) (mt : Option Int) :
    jsonLookup (chatRequestBody apiKey model messages o) "temperature" =
      o.temperature.map Json.num ∧
    jsonLookup (chatRequestBody apiKey model messages o) "max_tokens" =
      o.maxTokens.map Json.num ∧
    jsonLookup (chatRequestBody apiKey model messages o) "openai_compatible" =
      o.openaiCompatible.map Json.bool ∧
    jsonLookup (chatRequestBody apiKey model messages o) "stream" =
      o.stream.map Json.bool ∧
    jsonLookup (wrapperChatRequestBody apiKey model messages mt) "max_tokens" =
      (match mt with
       | some t => if t ≠ 0 then some (Json.num t) else none
       | none => none) := by
  rcases o with ⟨ot, om, oti, oc, os⟩
  refine ⟨?_, ?_, ?_, ?_, ?_⟩
  · cases ot <;> cases om <;> cases oc <;> cases os <;>
      simp [chatRequestBody, jsonLookup, lookupPairs]
  · cases ot <;> cases om <;> cases oc <;> cases os <;>
      simp [chatRequestBody, jsonLookup, lookupPairs]
  · cases ot <;> cases om <;> cases oc <;> cases os <;>
      simp [chatRequestBody, jsonLookup, lookupPairs]
  · cases ot <;> cases om <;> cases oc <;> cases os <;>
      simp [chatRequestBody, jsonLookup, lookupPairs]
  · cases mt with
    | none => simp [wrapperChatRequestBody, jsonLookup, lookupPairs]
    | some t =>
      by_cases ht : t = 0
      · simp [wrapperChatRequestBody, jsonLookup, lookupPairs, ht]
      · simp [wrapperChatRequestBody, jsonLookup, lookupPairs, ht]

/-! ## C10 - truthiness guards on apiKey and baseUrl -/

/-- Claim C10: `updateConfig` called with `apiKey` or `baseUrl` present but
equal to the empty string leaves those fields unchanged (truthiness
guards), so a non-empty credential or base URL can never be cleared to an
empty value through `updateConfig` — unlike `timeout`, `retries`,
`retryDelay` and `debug`, which apply whenever present (presence checks). -/
theorem updateConfig_truthiness_guard (c : ClientConfig) (p : ConfigUpdate) :
    (p.apiKey = some "" → (updateConfig c p).apiKey = c.apiKey) ∧
    (p.baseUrl = some "" → (updateConfig c p).baseUrl = c.baseUrl) ∧
    (c.apiKey ≠ "" → (updateConfig c p).apiKey ≠ "") ∧
    (c.baseUrl ≠ "" → (updateConfig c p).baseUrl ≠ "") ∧
    (∀ t, p.timeout = some t → (updateConfig c p).timeout = t) ∧
    (∀ r, p.retries = some r → (updateConfig c p).retries = r) ∧
    (∀ d, p.retryDelay = some d → (updateConfig c p).retryDelay = d) ∧
    (∀ b, p.debug = some b → (updateConfig c p).debug = b) := by
  refine ⟨?_, ?_, ?_, ?_, ?_, ?_, ?_, ?_⟩
  · intro h
    simp [updateConfig_eq, h]
  · intro h
    simp [updateConfig_eq, h]
  · intro hc
    rcases hpa : p.apiKey with - | k
    · simpa [updateConfig_eq, hpa] using hc
    · simp only [updateConfig_eq, hpa]
      split_ifs with hk
      · exact hk
      · exact hc
  · intro hc
    rcases hpb : p.baseUrl with - | u
    · simpa [updateConfig_eq, hpb] using hc
    · simp only [updateConfig_eq, hpb]
      split_ifs with hu
      · exact hu
      · exact hc
  · intro x hx
    simp [updateConfig_eq, hx]
  · intro x hx
    simp [updateConfig_eq, hx]
  · intro x hx
    simp [updateConfig_eq, hx]
  · intro x hx
    simp [updateConfig_eq, hx]

/-- Witness for C10: a present-but-empty `apiKey` and `baseUrl` leave a
concrete configuration's credential and URL unchanged, while the same
update's falsy-but-present `timeout: 0` and `debug`-flip do apply. -/
theorem updateConfig_truthiness_guard_witness :
    (updateConfig
      { apiKey := "sk-live-abcd1234", baseUrl := "https://api.exnest.app/v1",
        timeout := 30000, retries := 3, retryDelay := 1000, debug := false }
      { apiKey := some "", baseUrl := some "", timeout := some 0,
        retries := some 7, retryDelay := some 9, debug := some true }).apiKey
      = "sk-live-abcd1234" ∧
    (updateConfig
      { apiKey := "sk-live-abcd1234", baseUrl := "https://api.exnest.app/v1",
        timeout := 30000, retries := 3, retryDelay := 1000, debug := false }
      { apiKey := some "", baseUrl := some "", timeout := some 0,
        retries := some 7, retryDelay := some 9, debug := some true }).baseUrl
      = "https://api.exnest.app/v1" ∧
    (updateConfig
      { apiKey := "sk-live-abcd1234", baseUrl := "https://api.exnest.app/v1",
        timeout := 30000, retries := 3, retryDelay := 1000, debug := false }
      { apiKey := some "", baseUrl := some "", timeout := some 0,
        retries := some 7, retryDelay := some 9, debug := some true }).timeout
      = 0 ∧
    (updateConfig
      { apiKey := "sk-live-abcd1234", baseUrl := "https://api.exnest.app/v1",
        timeout := 30000, retries := 3, retryDelay := 1000, debug := false }
      { apiKey := some "", baseUrl := some "", timeout := some 0,
        retries := some 7, retryDelay := some 9, debug := some true }).debug
      = true := by
  have h := updateConfig_truthiness_guard
    { apiKey := "sk-live-abcd1234", baseUrl := "https://api.exnest.app/v1",
      timeout := 30000, retries := 3, retryDelay := 1000, debug := false }
    { apiKey := some "", baseUrl := some "", timeout := some 0,
      retries := some 7, retryDelay := some 9, debug := some true }
  exact ⟨(h.1 rfl).trans rfl, (h.2.1 rfl).trans rfl,
    h.2.2.2.2.1 0 rfl, h.2.2.2.2.2.2.2 true rfl⟩

/-! ## C7 - event-stream decoding -/

/-- A newline-free text splits into no complete lines and itself as the
buffer. -/
theorem splitLines_no_newline (b : List Char) (h : '\n' ∉ b) :
    splitLines b = ([], b) := by
  induction b with
  | nil => rfl
  | cons c cs ih =>
    have hc : ¬(c = '\n') := fun hh => h (hh ▸ List.mem_cons_self c cs)
    have hcs : '\n' ∉ cs := fun hh => h (List.mem_cons_of_mem c hh)
    simp [splitLines, hc, ih hcs]

/-- The trailing buffer produced by `splitLines` never contains a
newline. -/
theorem splitLines_snd_no_newline (x : List Char) :
    '\n' ∉ (splitLines x).2 := by
  induction x with
  | nil => simp [splitLines]
  | cons c cs ih =>
    by_cases hc : c = '\n'
    · simpa [splitLines, hc] using ih
    · rcases hs : splitLines cs with ⟨L, B⟩
      rw [hs] at ih
      rcases L with - | ⟨l, ls⟩
      · simp only [splitLines, hs, if_neg hc]
        intro hmem
        rcases List.mem_cons.mp hmem with rfl | hmem
        · exact hc rfl
        · exact ih hmem
      · simpa [splitLines, hs, hc] using ih

/-- Splitting a concatenation: the complete lines of `a` are followed by
the lines obtained from `a`'s trailing buffer glued onto `b`. -/
theorem splitLines_append (a b : List Char) :
    splitLines (a ++ b) =
      ((splitLines a).1 ++ (splitLines ((splitLines a).2 ++ b)).1,
       (splitLines ((splitLines a).2 ++ b)).2) := by
  induction a with
  | nil => simp [splitLines]
  | cons c a ih =>
    by_cases hc : c = '\n'
    · subst hc
      simp [List.cons_append, splitLines, ih]
    · rcases hsa : splitLines a with ⟨L, B⟩
      rw [hsa] at ih
      rcases L with - | ⟨l, ls⟩
      · rcases hx : splitLines (B ++ b) with ⟨XL, XB⟩
        rw [hx] at ih
        rcases XL with - | ⟨xl, xls⟩
        · simp [splitLines, hc, hsa, hx, ih, List.cons_append]
        · simp [splitLines, hc, hsa, hx, ih, List.cons_append]
      · rcases hx : splitLines (B ++ b) with ⟨XL, XB⟩
        rw [hx] at ih
        simp [splitLines, hc, hsa, hx, ih, List.cons_append]

/-- The line loop over a concatenation: the sentinel short-circuits; absent
a sentinel in the first part, yields concatenate. -/
theorem processLines_append (parse : List Char → Option Json)
    (A B : List (List Char)) :
    processLines parse (A ++ B) =
      if (processLines parse A).2 then processLines parse A
      else ((processLines parse A).1 ++ (processLines parse B).1,
            (processLines parse B).2) := by
  induction A with
  | nil => simp [processLines]
  | cons l ls ih =>
    by_cases hd : isDataLine l
    · by_cases hdone : payloadOf l = doneChars
      · simp [processLines, hd, hdone]
      · cases hp : parse (payloadOf l) with
        | some ch =>
          by_cases h2 : (processLines parse ls).2 <;>
            simp [processLines, hd, hdone, hp, ih, h2]
        | none =>
          by_cases h2 : (processLines parse ls).2 <;>
            simp [processLines, hd, hdone, hp, ih, h2]
    · by_cases h2 : (processLines parse ls).2 <;>
        simp [processLines, hd, ih, h2]

/-- The line loop yields exactly the parsed payloads of the `data: ` lines
before the first sentinel line, and reports whether a sentinel line was
present. -/
theorem processLines_eq_filter (parse : List Char → Option Json)
    (segs : List (List Char)) :
    processLines parse segs =
      ((segs.takeWhile fun l => !(isDoneLine l)).filterMap
        (fun l => if isDataLine l then parse (payloadOf l) else none),
       segs.any isDoneLine) := by
  induction segs with
  | nil => simp [processLines]
  | cons l ls ih =>
    by_cases hd : isDataLine l
    · by_cases hdone : payloadOf l = doneChars
      · have hdl : isDoneLine l = true := by simp [isDoneLine, hd, hdone]
        simp [processLines, hd, hdone, hdl]
      · have hdl : isDoneLine l = false := by simp [isDoneLine, hdone]
        cases hp : parse (payloadOf l) with
        | some ch =>
          simp [processLines, hd, hdone, hdl, hp, ih, List.takeWhile_cons]
        | none =>
          simp [processLines, hd, hdone, hdl, hp, ih, List.takeWhile_cons]
    · have hdl : isDoneLine l = false := by simp [isDoneLine, hd]
      simp [processLines, hd, hdl, ih, List.takeWhile_cons]

/-- The end-of-stream flush treats the trailing buffer exactly like one
more line with the same parse-or-skip (and sentinel-suppressing) logic. -/
theorem flushRemaining_eq (parse : List Char → Option Json) (buf : List Char) :
    flushRemaining parse buf =
      ([buf].takeWhile fun l => !(isDoneLine l)).filterMap
        (fun l => if isDataLine l then parse (payloadOf l) else none) := by
  by_cases hd : isDataLine buf
  · by_cases hdone : payloadOf buf = doneChars
    · simp [flushRemaining, hd, hdone, isDoneLine]
    · cases hp : parse (payloadOf buf) with
      | some ch => simp [flushRemaining, hd, hdone, isDoneLine, hp]
      | none => simp [flushRemaining, hd, hdone, isDoneLine, hp]
  · simp [flushRemaining, hd, isDoneLine]

/-- `takeWhile` of a negated predicate over an append stops inside the
first part when that part contains a witness of the predicate. -/
theorem takeWhile_append_of_any {α : Type} (p : α → Bool) (l l' : List α)
    (h : l.any p = true) :
    (l ++ l').takeWhile (fun x => !(p x)) = l.takeWhile (fun x => !(p x)) := by
  induction l with
  | nil => simp at h
  | cons x xs ih =>
    by_cases hx : p x
    · simp [List.takeWhile_cons, hx]
    · simp only [List.any_cons, hx, Bool.false_or] at h
      simp [List.takeWhile_cons, hx, ih h]

/-- `takeWhile` of a negated predicate over an append passes the whole
first part when that part has no witness of the predicate. -/
theorem takeWhile_append_of_not_any {α : Type} (p : α → Bool) (l l' : List α)
    (h : l.any p = false) :
    (l ++ l').takeWhile (fun x => !(p x)) =
      l ++ l'.takeWhile (fun x => !(p x)) := by
  induction l with
  | nil => simp
  | cons x xs ih =>
    simp only [List.any_cons, Bool.or_eq_false_iff] at h
    simp [List.takeWhile_cons, h.1, ih h.2]

/-- The incremental read loop computes, over any chunking, the same result
as one pass over the concatenated stream text (given a newline-free
starting buffer). -/
theorem sseRun_eq_sseText (parse : List Char → Option Json) :
    ∀ (chunks : List (List Char)) (buf : List Char),
      splitLines buf = ([], buf) →
      sseRun parse buf chunks = sseText parse (buf ++ chunks.flatten) := by
  intro chunks
  induction chunks with
  | nil =>
    intro buf hbuf
    simp [sseRun, sseText, hbuf, processLines]
  | cons chunk rest ih =>
    intro buf hbuf
    have hresid : splitLines ((splitLines (buf ++ chunk)).2) =
        ([], (splitLines (buf ++ chunk)).2) :=
      splitLines_no_newline _ (splitLines_snd_no_newline _)
    have hih := ih ((splitLines (buf ++ chunk)).2) hresid
    have hjoin : buf ++ (chunk :: rest).flatten =
        (buf ++ chunk) ++ rest.flatten := by
      simp
    rw [hjoin]
    simp only [sseRun, sseText]
    rw [splitLines_append (buf ++ chunk) rest.flatten]
    simp only []
    rw [processLines_append]
    by_cases h2 : (processLines parse (splitLines (buf ++ chunk)).1).2
    · simp [h2]
    · by_cases hy2 : (processLines parse
          (splitLines ((splitLines (buf ++ chunk)).2 ++ rest.flatten)).1).2
      · simp [h2, hy2, hih, sseText, List.append_assoc]
      · simp [h2, hy2, hih, sseText, List.append_assoc]

/-- Claim C7: over any chunking of any event-stream body, the streaming
loop yields, in arrival order, exactly the successfully parsed JSON
payloads of the `data: ` lines (the trailing partial line flushed at end of
stream included) that precede the first `data: [DONE]` sentinel line; a
payload that fails to parse is skipped without terminating the sequence;
the sentinel ends the sequence (reported by the Boolean component, with no
error case on this path). In particular the mock body
`data: ...\n\ndata: [DONE]\n\n` yields exactly one chunk and then ends via
the sentinel — also when it arrives split across two reads — and a
malformed `data: not-json` line mid-stream is skipped while the following
valid event still yields. -/
theorem sseStream_yields_spec :
    (∀ (parse : List Char → Option Json) (chunks : List (List Char)),
      (sseStream parse chunks).1 = sseClaimedYields parse chunks.flatten ∧
      (sseStream parse chunks).2 =
        (splitLines chunks.flatten).1.any isDoneLine) ∧
    sseStream mockParse [mockBody] = ([mockChunk], true) ∧
    sseStream mockParse [mockBody.take 10, mockBody.drop 10]
      = ([mockChunk], true) ∧
    sseStream mockParse [mockBodyMalformed] = ([mockChunk], true) := by
  refine ⟨?_, by rfl, by rfl, by rfl⟩
  intro parse chunks
  have h0 : sseStream parse chunks = sseText parse chunks.flatten := by
    rw [sseStream, sseRun_eq_sseText parse chunks [] rfl]
    simp
  rw [h0]
  have hflush := flushRemaining_eq parse (splitLines chunks.flatten).2
  simp only [sseText, sseClaimedYields, processLines_eq_filter, hflush]
  by_cases hany : (splitLines chunks.flatten).1.any isDoneLine = true
  · rw [takeWhile_append_of_any isDoneLine _ _ hany]
    simp [hany]
  · have hany' : (splitLines chunks.flatten).1.any isDoneLine = false := by
      simpa using hany
    have hself : (splitLines chunks.flatten).1.takeWhile
        (fun l => !(isDoneLine l)) = (splitLines chunks.flatten).1 := by
      have hh := takeWhile_append_of_not_any isDoneLine
        (splitLines chunks.flatten).1 [] hany'
      simpa using hh
    rw [takeWhile_append_of_not_any isDoneLine _ _ hany',
      List.filterMap_append, hself]
    simp [hany']
